import Mathlib

/-!
Verification of the Demographic Synthesis & Report Assembly Engine.

The development shallowly embeds the engine's core: the cohort synthesizer
(`generate_distribution`, `pyramidShares34`), the nearest-available-year
resolver (`get_best_available_data`), and the report assembly pipeline
(`create_simple_report`, `create_ai_report` and their section builders).
Machine floats are modelled by exact rationals; the host language's
`round(x, n)` primitive (round half to even) is modelled by `rhe`/`round2`;
a missing (NaN) scalar input is modelled by `Option.none`.
-/

namespace ADP

/-- Round half to even on rationals: the rounding rule of the host
language's builtin `round`. Ties (fractional part exactly 1/2) go to the
even neighbour. -/
def rhe (x : ℚ) : ℤ :=
  if Int.fract x < 1/2 then ⌊x⌋
  else if Int.fract x = 1/2 then (if ⌊x⌋ % 2 = 0 then ⌊x⌋ else ⌊x⌋ + 1)
  else ⌊x⌋ + 1

/-- `round(x, 2)`: round to two decimal digits, ties to even. -/
def round2 (x : ℚ) : ℚ := (rhe (x * 100) : ℚ) / 100

/-- `np.clip(x, lo, hi)`. -/
def clip (x lo hi : ℚ) : ℚ := min (max x lo) hi

/-- Survival curve of the cohort synthesizer: bands 0-2 increase mildly
with life expectancy, bands 3-12 decay linearly, bands 13-16 carry the
steep elderly penalty; every value is clamped to [0.1, 0.99]. -/
def survival (life_exp : ℚ) (i : ℕ) : ℚ :=
  let s : ℚ :=
    if i < 3 then 0.95 + (life_exp - 50) * 0.001
    else if i < 13 then 0.98 - ((i : ℚ) - 3) * 0.005
    else max 0.3 (0.85 - ((i : ℚ) - 13) * 0.1 - (85 - life_exp) * 0.01)
  max 0.1 (min 0.99 s)

/-- Seed population `base = 100000 * (tfr / 5.0) * 0.048`. -/
def popBase (tfr : ℚ) : ℚ := 100000 * (tfr / 5.0) * 0.048

/-- Body of one iteration of the band loop: the unfloored population of
band `i` given the previous band's (floored) population `prev`. -/
def bandStep (tfr life_exp growth : ℚ) (i : ℕ) (prev : ℚ) : ℚ :=
  if i = 0 then popBase tfr * survival life_exp 0
  else
    let pop := prev * survival life_exp i * (1 + growth / 100) ^ (-((i : ℤ) * 5))
    if 15 ≤ i then pop * 0.6 else pop

/-- The band loop: starting from `[]`, append `max(100, pop)` for each
band index in turn, reading the previous band from the accumulated list. -/
def distList (tfr life_exp growth : ℚ) : ℕ → List ℚ
  | 0 => []
  | n + 1 =>
    let prev := distList tfr life_exp growth n
    prev ++ [max 100 (bandStep tfr life_exp growth n (prev.getD (n - 1) 0))]

/-- Closed-form recurrence for the floored band populations. -/
def band (tfr life_exp growth : ℚ) : ℕ → ℚ
  | 0 => max 100 (bandStep tfr life_exp growth 0 0)
  | i + 1 => max 100 (bandStep tfr life_exp growth (i + 1) (band tfr life_exp growth i))

/-- The fixed fallback distribution `[5.5]*3 + [4.0]*10 + [2.0]*4`. -/
def fallbackDist : List ℚ :=
  List.replicate 3 5.5 ++ List.replicate 10 4.0 ++ List.replicate 4 2.0

/-- `generate_distribution`: a missing (NaN) input is `none`; the inputs
are defaulted, clamped, run through the band loop, and normalized to
two-decimal percentage shares; the fallback list guards a zero total. -/
def generate_distribution (tfr0 life0 growth0 : Option ℚ) : List ℚ :=
  let tfr := clip (tfr0.getD 4.0) 1.5 8.0
  let life_exp := clip (life0.getD 60) 40 85
  let growth := clip (growth0.getD 2.5) (-1) 5
  let dist := distList tfr life_exp growth 17
  let total := dist.sum
  if 0 < total then dist.map (fun p => round2 (p / total * 100)) else fallbackDist

/-- The pre-normalization band list produced inside `generate_distribution`. -/
def rawDist (tfr0 life0 growth0 : Option ℚ) : List ℚ :=
  distList (clip (tfr0.getD 4.0) 1.5 8.0) (clip (life0.getD 60) 40 85)
    (clip (growth0.getD 2.5) (-1) 5) 17

/-- Male bars of the population pyramid: `round(-p * 0.515, 2)` (negated
for the left-hand side of the horizontal pyramid chart). -/
def maleBars (pop_age : List ℚ) : List ℚ := pop_age.map (fun p => round2 (-p * 0.515))

/-- Female bars of the population pyramid: `round(p * 0.485, 2)`. -/
def femaleBars (pop_age : List ℚ) : List ℚ := pop_age.map (fun p => round2 (p * 0.485))

/-- The 34 male/female shares (as magnitudes: the male bars are stored
negated in the chart, so their magnitudes are the negations). -/
def pyramidShares34 (tfr0 life0 growth0 : Option ℚ) : List ℚ :=
  let pop_age := generate_distribution tfr0 life0 growth0
  (maleBars pop_age).map (fun x => -x) ++ femaleBars pop_age

/-- One row of the per-country time series: country code, country name,
year, and the value of the target indicator column (`none` = NaN). -/
structure Row where
  country_iso2 : String
  country_name : String
  year : ℤ
  value : Option ℚ
deriving DecidableEq

/-- One output record of the year resolver; the indicator value is
rounded to two decimals. -/
structure ResRow where
  country_iso2 : String
  country_name : String
  year : ℤ
  value : ℚ
deriving DecidableEq

/-- One step of the resolver's inner loop: take the first row of the
country's data at year `y`; if it exists and its value is present, build
the output record (with the loop's country code `c`). -/
def tryYear (c : String) (rows : List Row) (y : ℤ) : Option ResRow :=
  match (rows.filter (fun r => r.year == y)).head? with
  | some r =>
    match r.value with
    | some v => some ⟨c, r.country_name, y, round2 v⟩
    | none => none
  | none => none

/-- The `for offset in range(max_years_back + 1)` loop with its early
`break`, written as recursion: try the target year first, else retry one
year earlier with one fewer remaining offset. -/
def resolveCountry (c : String) (rows : List Row) (target : ℤ) : ℕ → Option ResRow
  | 0 => tryYear c rows target
  | k + 1 =>
    match tryYear c rows target with
    | some res => some res
    | none => resolveCountry c rows (target - 1) k

/-- `df['country_iso2'].unique()`: country codes in first-appearance order. -/
def uniqueCountries : List Row → List String
  | [] => []
  | r :: rest =>
    r.country_iso2 :: uniqueCountries (rest.filter (fun q => q.country_iso2 != r.country_iso2))
termination_by l => l.length
decreasing_by
  simp only [List.length_cons]
  exact Nat.lt_succ_of_le (List.length_filter_le _ _)

/-- `get_best_available_data`: resolve each country independently and drop
the unavailable ones from the result. -/
def get_best_available_data (df : List Row) (target : ℤ) (k : ℕ) : List ResRow :=
  (uniqueCountries df).filterMap
    (fun c => resolveCountry c (df.filter (fun r => r.country_iso2 == c)) target k)

/-- Usable data at year `y`: the first row at that year exists and its
indicator value is present. -/
def hasData (rows : List Row) (y : ℤ) : Bool :=
  match (rows.filter (fun r => r.year == y)).head? with
  | some r => r.value.isSome
  | none => false

/-- The two supported report languages. -/
inductive Lang
  | fr
  | en
deriving DecidableEq

/-- A metric value as the report code distinguishes them: an integer, a
finite float (exact rational in this model), the missing-value sentinel
NaN, or a text value. -/
inductive PyVal
  | vint (n : ℤ)
  | vfloat (q : ℚ)
  | vnan
  | vstr (s : String)
deriving DecidableEq

/-- `pd.isna` on a metric value. -/
def isna : PyVal → Bool
  | .vnan => true
  | _ => false

/-- Left-pad a digit string with zeros to the given length. -/
def padZeros (s : String) (len : ℕ) : String :=
  String.mk (List.replicate (len - s.length) '0') ++ s

/-- Decimal rendering of the integer `m` scaled by `10^prec`, i.e. the
fixed-point number `m / 10^prec` with exactly `prec` digits after the
point. -/
def decimalOfInt (m : ℤ) (prec : ℕ) : String :=
  let a := m.natAbs
  let ip := a / 10 ^ prec
  let fp := a % 10 ^ prec
  (if m < 0 then "-" else "") ++ toString ip ++
    (if prec = 0 then "" else "." ++ padZeros (toString fp) prec)

/-- The `f"{v:.prec f}"` fixed-point format of a metric value (round half
to even, like the host's float formatting on exact decimals). Formatting
a text value raises in the host language; the model returns the text
itself and the theorems about the summary section exclude that case. -/
def pyFormatFixed (prec : ℕ) (v : PyVal) : String :=
  match v with
  | .vnan => "nan"
  | .vint n => decimalOfInt (n * 10 ^ prec) prec
  | .vfloat q => decimalOfInt (rhe (q * 10 ^ prec)) prec
  | .vstr s => s

/-- `str(value)` on a metric value. A float is rendered from its exact
rational as `num/den` (no claim depends on the digits of `str(float)`). -/
def pyStr : PyVal → String
  | .vint n => toString n
  | .vfloat q => toString q.num ++ (if q.den = 1 then "" else "/" ++ toString q.den)
  | .vnan => "nan"
  | .vstr s => s

/-- A block of the assembled document: headings, paragraphs, bullet-list
paragraphs, and embedded images (raster bytes abstracted to a tag). -/
inductive Block
  | heading (level : ℕ) (text : String)
  | para (text : String)
  | bullet (text : String)
  | image (data : ℕ)
deriving DecidableEq

/-- A metrics mapping: an ordered association of metric names to values
(first binding wins on lookup, as in a dict). -/
abbrev Metrics := List (String × PyVal)

/-- The bullet lines of `_add_executive_summary`: population and country
count are guarded only by key presence; fertility rate and median age are
guarded by presence AND a non-NaN value. -/
def summaryLines (data : Metrics) : List String :=
  (match data.lookup "total_population_millions" with
   | some v => ["Population totale: " ++ pyFormatFixed 1 v ++ " millions"]
   | none => []) ++
  (match data.lookup "weighted_tfr" with
   | some v => if isna v then [] else ["Taux de fécondité moyen: " ++ pyFormatFixed 2 v]
   | none => []) ++
  (match data.lookup "weighted_median_age" with
   | some v => if isna v then [] else ["Âge médian: " ++ pyFormatFixed 1 v ++ " ans"]
   | none => []) ++
  (match data.lookup "countries_analyzed" with
   | some v => ["Pays analysés: " ++ pyStr v]
   | none => [])

/-- `_add_executive_summary`: localized heading, the summary bullet
lines, one trailing empty paragraph. -/
def execSummaryBlocks (lang : Lang) (data : Metrics) : List Block :=
  [Block.heading 2 (if lang = Lang.fr then "Résumé Exécutif" else "Executive Summary")] ++
    (summaryLines data).map Block.bullet ++ [Block.para ""]

/-- The paragraph lines of `_add_main_data`: ints and floats are rendered
when not NaN (floats with two decimals, ints via `str`), text verbatim,
NaN entries skipped. -/
def mainDataLines (data : Metrics) : List String :=
  data.flatMap (fun kv =>
    match kv.2 with
    | .vint n => [kv.1 ++ ": " ++ toString n]
    | .vfloat q => [kv.1 ++ ": " ++ pyFormatFixed 2 (.vfloat q)]
    | .vnan => []
    | .vstr s => [kv.1 ++ ": " ++ s])

/-- `_add_main_data`: localized heading, one paragraph per rendered
entry, one trailing empty paragraph. -/
def mainDataBlocks (lang : Lang) (data : Metrics) : List Block :=
  [Block.heading 2 (if lang = Lang.fr then "Données Principales" else "Main Data")] ++
    (mainDataLines data).map Block.para ++ [Block.para ""]

/-- A figure slot: `none` is a `None` entry (skipped); otherwise the
outcome of the figure's render-to-image call — image bytes, or the raised
exception's message. -/
abbrev Fig := Option (Except String ℕ)

/-- The blocks produced for one figure at position `i`: an embedded image
with its caption, or the inline error placeholder naming the figure
index and the failure reason. -/
def figureEntryBlocks (i : ℕ) (f : Fig) : List Block :=
  match f with
  | none => []
  | some (.ok b) => [Block.image b, Block.para ("Figure " ++ toString (i + 1))]
  | some (.error e) =>
    [Block.para ("[Erreur figure " ++ toString (i + 1) ++ ": " ++ e ++ "]")]

/-- `_add_figures`: localized heading, the per-figure blocks in order,
one trailing empty paragraph. -/
def figuresBlocks (lang : Lang) (figs : List Fig) : List Block :=
  [Block.heading 2 (if lang = Lang.fr then "Graphiques" else "Figures")] ++
    (figs.enum.flatMap (fun p => figureEntryBlocks p.1 p.2)) ++ [Block.para ""]

/-- The canned explanations table of `_add_brief_explanation`, keyed by
module name (French and English module names each carry their own
paragraph). -/
def explanations : List (String × String) :=
  [("Vue Continentale", "Ce rapport présente une vue d'ensemble des indicateurs démographiques pour l'ensemble du continent africain, calculés par moyennes pondérées par population."),
   ("Continental Overview", "This report presents an overview of demographic indicators for the entire African continent, calculated using population-weighted averages."),
   ("Profils Pays", "Ce rapport analyse en détail les indicateurs démographiques pour le pays sélectionné, incluant la structure par âge et les tendances temporelles."),
   ("Country Profiles", "This report analyzes in detail the demographic indicators for the selected country, including age structure and temporal trends."),
   ("Analyse des Tendances", "Ce rapport compare l'évolution temporelle des indicateurs démographiques entre plusieurs pays."),
   ("Trend Analysis", "This report compares the temporal evolution of demographic indicators across multiple countries."),
   ("Analyse par Groupement", "Ce rapport utilise des algorithmes de machine learning pour classifier les pays africains selon leurs profils démographiques similaires."),
   ("Clustering Analysis", "This report uses machine learning algorithms to classify African countries according to their similar demographic profiles."),
   ("Explorateur de Données", "Ce rapport présente les données filtrées selon vos critères de sélection."),
   ("Data Explorer", "This report presents the filtered data according to your selection criteria.")]

/-- The generic fallback explanation for unknown module names. -/
def genericExplanationText : String :=
  "Ce rapport présente une analyse démographique détaillée."

/-- `_add_brief_explanation` (the Static narrative provider): localized
heading, the module's canned paragraph or the generic fallback, one
trailing empty paragraph. -/
def briefExplanationBlocks (lang : Lang) (module_name : String) : List Block :=
  [Block.heading 2 (if lang = Lang.fr then "Explication" else "Explanation"),
   Block.para ((explanations.lookup module_name).getD genericExplanationText),
   Block.para ""]

/-- The fixed not-configured notice (identical for both languages). -/
def noKeyNotice : String :=
  "⚠️ Clé API Gemini non configurée. Définissez GEMINI_API_KEY."

/-- `_add_ai_analysis` (the Generative narrative provider): localized
heading; without a credential, the fixed notice and an early return
(no trailing empty paragraph, no remote call); with a credential, the
remote call's outcome — its text on success, a localized error line
embedding the exception message on failure — plus the trailing empty
paragraph. The remote outcome is passed in as `remote`. -/
def aiAnalysisBlocks (lang : Lang) (hasKey : Bool) (remote : Except String String) :
    List Block :=
  [Block.heading 2 (if lang = Lang.fr then "Analyse IA et Recommandations"
    else "AI Analysis and Recommendations")] ++
  (if hasKey = false then [Block.para noKeyNotice]
   else
    match remote with
    | .ok text => [Block.para text, Block.para ""]
    | .error e =>
      [Block.para ((if lang = Lang.fr then "Erreur analyse IA: "
        else "Error during AI analysis: ") ++ e), Block.para ""])

/-- `_add_header`: fixed title plus localized subtitle with the module
name, one trailing empty paragraph. -/
def headerBlocks (lang : Lang) (module_name : String) : List Block :=
  [Block.heading 0 "Africa Demographics Platform",
   Block.heading 1 ((if lang = Lang.fr then "Rapport" else "Report") ++ ": " ++ module_name),
   Block.para ""]

/-- The date paragraph (the formatted date string is passed in). -/
def dateBlocks (dateText : String) : List Block :=
  [Block.para ("Date: " ++ dateText), Block.para ""]

/-- `_add_footer`: an empty paragraph, a rule of 80 dashes, and the fixed
attribution block ending in the generation timestamp (passed in). -/
def footerBlocks (timestampText : String) : List Block :=
  [Block.para "",
   Block.para (String.mk (List.replicate 80 '─')),
   Block.para ("Africa Demographics Platform (ADP) v2.5\nConception et développement: Zakaria Benhoumad\nAssisté par: Anthropic Claude\nSource des données: World Bank Open Data API\nGénéré le: " ++ timestampText)]

/-- `create_simple_report`: header, date, executive summary, main data,
figures (only when the figure list is non-empty), static explanation,
footer. -/
def create_simple_report (lang : Lang) (dateText timestampText module_name : String)
    (data : Metrics) (figs : List Fig) : List Block :=
  headerBlocks lang module_name ++ dateBlocks dateText ++
    execSummaryBlocks lang data ++ mainDataBlocks lang data ++
    (if figs.isEmpty then [] else figuresBlocks lang figs) ++
    briefExplanationBlocks lang module_name ++ footerBlocks timestampText

/-- `create_ai_report`: like the simple report but with the Generative
narrative section in place of the static explanation. -/
def create_ai_report (lang : Lang) (dateText timestampText module_name : String)
    (data : Metrics) (figs : List Fig) (hasKey : Bool)
    (remote : Except String String) : List Block :=
  headerBlocks lang module_name ++ dateBlocks dateText ++
    execSummaryBlocks lang data ++ mainDataBlocks lang data ++
    (if figs.isEmpty then [] else figuresBlocks lang figs) ++
    aiAnalysisBlocks lang hasKey remote ++ footerBlocks timestampText

/-- Is a metric value a text value? -/
def isStr : PyVal → Bool
  | .vstr _ => true
  | _ => false

theorem abs_rhe_sub_le (x : ℚ) : |(rhe x : ℚ) - x| ≤ 1/2 := by
  have hfr : Int.fract x = x - ⌊x⌋ := rfl
  have h0 : 0 ≤ Int.fract x := Int.fract_nonneg x
  have h1 : Int.fract x < 1 := Int.fract_lt_one x
  rw [hfr] at h0 h1
  unfold rhe
  split
  · have hlt : Int.fract x < 1/2 := by assumption
    rw [hfr] at hlt
    rw [abs_le]; constructor <;> linarith
  · split
    · have htie : Int.fract x = 1/2 := by assumption
      rw [hfr] at htie
      split <;> rw [abs_le] <;> constructor <;> push_cast <;> linarith
    · have h2 : 1/2 ≤ Int.fract x := le_of_not_lt (by assumption)
      rw [hfr] at h2
      rw [abs_le]; constructor <;> push_cast <;> linarith

theorem rhe_nonneg {x : ℚ} (h : 0 ≤ x) : 0 ≤ rhe x := by
  have hf : 0 ≤ ⌊x⌋ := Int.floor_nonneg.mpr h
  unfold rhe
  split
  · exact hf
  · split
    · split <;> omega
    · omega

theorem floor_int_sub_of_fract_ne (k : ℤ) (x : ℚ) (h : Int.fract x ≠ 0) :
    ⌊(k : ℚ) - x⌋ = k - ⌊x⌋ - 1 ∧ Int.fract ((k : ℚ) - x) = 1 - Int.fract x := by
  have hfr : Int.fract x = x - ⌊x⌋ := rfl
  have h0 : 0 ≤ Int.fract x := Int.fract_nonneg x
  have h1 : Int.fract x < 1 := Int.fract_lt_one x
  have h0' : 0 < x - ⌊x⌋ := lt_of_le_of_ne (hfr ▸ h0) (by rw [hfr] at h; exact fun e => h e.symm)
  have h1' : x - ⌊x⌋ < 1 := hfr ▸ h1
  have hfl : ⌊(k : ℚ) - x⌋ = k - ⌊x⌋ - 1 := by
    rw [Int.floor_eq_iff]
    constructor <;> push_cast <;> linarith
  refine ⟨hfl, ?_⟩
  have : Int.fract ((k : ℚ) - x) = ((k : ℚ) - x) - ⌊(k : ℚ) - x⌋ := rfl
  rw [this, hfl, hfr]
  push_cast
  ring

theorem floor_int_sub_of_fract_eq (k : ℤ) (x : ℚ) (h : Int.fract x = 0) :
    ⌊(k : ℚ) - x⌋ = k - ⌊x⌋ ∧ Int.fract ((k : ℚ) - x) = 0 := by
  have hx : x = (⌊x⌋ : ℚ) := by
    have hfr : Int.fract x = x - ⌊x⌋ := rfl
    rw [hfr] at h; linarith
  rw [hx]
  have : ((k : ℚ) - (⌊x⌋ : ℚ)) = ((k - ⌊x⌋ : ℤ) : ℚ) := by push_cast; ring
  rw [this, Int.floor_intCast, Int.fract_intCast]
  exact ⟨rfl, rfl⟩

theorem rhe_neg (x : ℚ) : rhe (-x) = -rhe x := by
  have hneg : -x = (0 : ℚ) - x := by ring
  have hfr : Int.fract x = x - ⌊x⌋ := rfl
  by_cases h : Int.fract x = 0
  · obtain ⟨hfl, hf⟩ := floor_int_sub_of_fract_eq 0 x h
    push_cast at hfl hf
    unfold rhe
    rw [hneg, hfl, hf, h]
    norm_num
  · obtain ⟨hfl, hf⟩ := floor_int_sub_of_fract_ne 0 x h
    push_cast at hfl hf
    have h0 : 0 ≤ Int.fract x := Int.fract_nonneg x
    have h1 : Int.fract x < 1 := Int.fract_lt_one x
    unfold rhe
    rw [hneg, hfl, hf]
    rcases lt_trichotomy (Int.fract x) (1/2) with hlt | heq | hgt
    · have hc1 : ¬ (1 - Int.fract x < 1/2) := by linarith
      have hc2 : ¬ (1 - Int.fract x = 1/2) := by
        intro e; apply h; linarith
      simp only [if_pos hlt, if_neg hc1, if_neg hc2]
      ring
    · have hc1 : ¬ (Int.fract x < 1/2) := by linarith
      have hc2 : (1 - Int.fract x) = 1/2 := by linarith
      have hc3 : ¬ (1 - Int.fract x < 1/2) := by linarith
      simp only [if_neg hc1, if_pos heq, if_neg hc3, if_pos hc2]
      split <;> split <;> omega
    · have hc1 : ¬ (Int.fract x < 1/2) := by linarith
      have hc2 : ¬ (Int.fract x = 1/2) := by linarith
      have hc3 : 1 - Int.fract x < 1/2 := by linarith
      simp only [if_neg hc1, if_neg hc2, if_pos hc3]
      ring

set_option maxHeartbeats 1000000 in
theorem rhe_split (k : ℤ) :
    rhe ((103 * k : ℚ) / 200) + rhe ((97 * k : ℚ) / 200) = k := by
  have hx97 : (97 * k : ℚ) / 200 = (k : ℚ) - (103 * k : ℚ) / 200 := by ring
  rw [hx97]
  generalize hxv : (103 * k : ℚ) / 200 = x
  have hfr : Int.fract x = x - ⌊x⌋ := rfl
  have h0 : 0 ≤ Int.fract x := Int.fract_nonneg x
  have h1 : Int.fract x < 1 := Int.fract_lt_one x
  by_cases h : Int.fract x = 0
  · obtain ⟨hfl, hf⟩ := floor_int_sub_of_fract_eq k x h
    unfold rhe
    rw [hfl, hf, h]
    norm_num
  · obtain ⟨hfl, hf⟩ := floor_int_sub_of_fract_ne k x h
    rcases lt_trichotomy (Int.fract x) (1/2) with hlt | heq | hgt
    · have hc1 : ¬ (1 - Int.fract x < 1/2) := by linarith
      have hc2 : ¬ (1 - Int.fract x = 1/2) := by intro e; apply h; linarith
      unfold rhe
      rw [hfl, hf]
      simp only [if_pos hlt, if_neg hc1, if_neg hc2]
      omega
    · have hkey : 103 * k = 200 * ⌊x⌋ + 100 := by
        have hx2 : x - ⌊x⌋ = 1/2 := by rw [← hfr]; exact heq
        have hq : (103 * k : ℚ) = 200 * (⌊x⌋ : ℚ) + 100 := by
          rw [← hxv] at hx2; linarith
        exact_mod_cast hq
      have hc1 : ¬ (Int.fract x < 1/2) := by linarith
      have hc2 : (1 - Int.fract x) = 1/2 := by linarith
      have hc3 : ¬ (1 - Int.fract x < 1/2) := by linarith
      unfold rhe
      rw [hfl, hf]
      simp only [if_neg hc1, if_pos heq, if_neg hc3, if_pos hc2]
      generalize ⌊x⌋ = m at hkey ⊢
      clear hc1 hc2 hc3 heq hfr hf h h0 h1 hxv
      split <;> split <;> omega
    · have hc1 : ¬ (Int.fract x < 1/2) := by linarith
      have hc2 : ¬ (Int.fract x = 1/2) := by linarith
      have hc3 : 1 - Int.fract x < 1/2 := by linarith
      unfold rhe
      rw [hfl, hf]
      simp only [if_neg hc1, if_neg hc2, if_pos hc3]
      omega

theorem abs_round2_sub_le (x : ℚ) : |round2 x - x| ≤ 1/200 := by
  have h := abs_rhe_sub_le (x * 100)
  have heq : round2 x - x = ((rhe (x * 100) : ℚ) - x * 100) / 100 := by
    unfold round2; ring
  rw [heq, abs_div]
  have : |(100 : ℚ)| = 100 := by norm_num
  rw [this]
  linarith

theorem round2_nonneg {x : ℚ} (h : 0 ≤ x) : 0 ≤ round2 x := by
  unfold round2
  have : (0 : ℤ) ≤ rhe (x * 100) := rhe_nonneg (by positivity)
  positivity

theorem round2_neg (x : ℚ) : round2 (-x) = -round2 x := by
  unfold round2
  have : (-x) * 100 = -(x * 100) := by ring
  rw [this, rhe_neg]
  push_cast
  ring

theorem distList_length (t l g : ℚ) (n : ℕ) : (distList t l g n).length = n := by
  induction n with
  | zero => rfl
  | succ n ih => simp [distList, ih]

theorem mem_distList_ge (t l g : ℚ) (n : ℕ) :
    ∀ p ∈ distList t l g n, (100 : ℚ) ≤ p := by
  induction n with
  | zero => intro p hp; simp [distList] at hp
  | succ n ih =>
    intro p hp
    simp only [distList, List.mem_append, List.mem_singleton] at hp
    rcases hp with hp | hp
    · exact ih p hp
    · rw [hp]; exact le_max_left _ _

theorem distList_sum_ge (t l g : ℚ) (n : ℕ) :
    (100 : ℚ) * n ≤ (distList t l g n).sum := by
  induction n with
  | zero => simp [distList]
  | succ n ih =>
    rw [distList]
    simp only [List.sum_append, List.sum_cons, List.sum_nil]
    push_cast
    have := le_max_left (100 : ℚ) (bandStep t l g n ((distList t l g n).getD (n - 1) 0))
    linarith

theorem distList_getD (t l g : ℚ) (n i : ℕ) (h : i < n) :
    (distList t l g n).getD i 0 = band t l g i := by
  induction n generalizing i with
  | zero => omega
  | succ n ih =>
    rw [distList]
    rcases Nat.lt_or_ge i n with hlt | hge
    · rw [List.getD_append _ _ _ _ (by rw [distList_length]; exact hlt)]
      exact ih i hlt
    · have hi : i = n := by omega
      subst hi
      rw [List.getD_append_right _ _ _ _ (by rw [distList_length])]
      rw [distList_length]
      simp only [Nat.sub_self, List.getD_cons_zero]
      cases i with
      | zero => simp [band, bandStep]
      | succ m =>
        have : (distList t l g (m + 1)).getD (m + 1 - 1) 0 = band t l g m := by
          rw [Nat.add_sub_cancel]
          exact ih m (Nat.lt_succ_self m)
        rw [this, band]

theorem round2_split (k : ℤ) :
    round2 ((k : ℚ) / 100 * 0.515) + round2 ((k : ℚ) / 100 * 0.485) = (k : ℚ) / 100 := by
  have h1 : ((k : ℚ) / 100 * 0.515) * 100 = (103 * k : ℚ) / 200 := by norm_num; ring
  have h2 : ((k : ℚ) / 100 * 0.485) * 100 = (97 * k : ℚ) / 200 := by norm_num; ring
  unfold round2
  rw [h1, h2, div_add_div_same]
  rw [show ((rhe ((103 * k : ℚ) / 200) : ℚ) + (rhe ((97 * k : ℚ) / 200) : ℚ))
        = ((rhe ((103 * k : ℚ) / 200) + rhe ((97 * k : ℚ) / 200) : ℤ) : ℚ) by push_cast; ring]
  rw [rhe_split]

theorem sum_map_add_split (l : List ℚ) (f g : ℚ → ℚ) :
    (l.map f).sum + (l.map g).sum = (l.map (fun x => f x + g x)).sum := by
  induction l with
  | nil => simp
  | cons a t ih => simp only [List.map_cons, List.sum_cons]; linarith

theorem abs_sum_round2_err (l : List ℚ) (f : ℚ → ℚ) :
    |(l.map (fun p => round2 (f p))).sum - (l.map f).sum| ≤ (l.length : ℚ) / 200 := by
  induction l with
  | nil => simp
  | cons a t ih =>
    simp only [List.map_cons, List.sum_cons, List.length_cons]
    have h1 := abs_round2_sub_le (f a)
    have h2 : |round2 (f a) + (t.map (fun p => round2 (f p))).sum - (f a + (t.map f).sum)|
        ≤ |round2 (f a) - f a| + |(t.map (fun p => round2 (f p))).sum - (t.map f).sum| := by
      have := abs_add (round2 (f a) - f a)
        ((t.map (fun p => round2 (f p))).sum - (t.map f).sum)
      calc |round2 (f a) + (t.map (fun p => round2 (f p))).sum - (f a + (t.map f).sum)|
          = |(round2 (f a) - f a) +
              ((t.map (fun p => round2 (f p))).sum - (t.map f).sum)| := by ring_nf
        _ ≤ _ := this
    push_cast
    push_cast at ih
    linarith

theorem getD_mem_of_lt {l : List ℚ} {i : ℕ} (h : i < l.length) : l.getD i 0 ∈ l := by
  rw [List.getD_eq_getElem?_getD, List.getElem?_eq_getElem h]
  exact List.getElem_mem h

theorem sum_map_mul_const (l : List ℚ) (c : ℚ) :
    (l.map (fun x => x * c)).sum = l.sum * c := by
  induction l with
  | nil => simp
  | cons a t ih => simp only [List.map_cons, List.sum_cons, ih]; ring

theorem rawDist_length (tfr0 life0 growth0 : Option ℚ) :
    (rawDist tfr0 life0 growth0).length = 17 := distList_length _ _ _ _

theorem rawDist_mem_ge (tfr0 life0 growth0 : Option ℚ) :
    ∀ p ∈ rawDist tfr0 life0 growth0, (100 : ℚ) ≤ p := mem_distList_ge _ _ _ _

theorem rawTotal_ge (tfr0 life0 growth0 : Option ℚ) :
    (1700 : ℚ) ≤ (rawDist tfr0 life0 growth0).sum := by
  have h := distList_sum_ge (clip (tfr0.getD 4.0) 1.5 8.0) (clip (life0.getD 60) 40 85)
    (clip (growth0.getD 2.5) (-1) 5) 17
  rw [show (rawDist tfr0 life0 growth0) = distList (clip (tfr0.getD 4.0) 1.5 8.0)
    (clip (life0.getD 60) 40 85) (clip (growth0.getD 2.5) (-1) 5) 17 from rfl]
  push_cast at h
  linarith

theorem rawTotal_pos (tfr0 life0 growth0 : Option ℚ) :
    (0 : ℚ) < (rawDist tfr0 life0 growth0).sum := by
  linarith [rawTotal_ge tfr0 life0 growth0]

theorem generate_eq_map (tfr0 life0 growth0 : Option ℚ) :
    generate_distribution tfr0 life0 growth0 =
      (rawDist tfr0 life0 growth0).map
        (fun p => round2 (p / (rawDist tfr0 life0 growth0).sum * 100)) := by
  rw [show generate_distribution tfr0 life0 growth0 =
      (if 0 < (rawDist tfr0 life0 growth0).sum then
        (rawDist tfr0 life0 growth0).map
          (fun p => round2 (p / (rawDist tfr0 life0 growth0).sum * 100))
      else fallbackDist) from rfl]
  rw [if_pos (rawTotal_pos tfr0 life0 growth0)]

/-- C9: with all three inputs missing, the synthesizer returns exactly the
distribution it returns for the documented defaults (4.0, 60, 2.5). -/
theorem missing_inputs_equal_defaults :
    generate_distribution none none none =
      generate_distribution (some 4.0) (some 60) (some 2.5) := rfl

/-- C10: every pre-normalization band population is floored at 100, hence
the total is at least 1700 and strictly positive, and
`generate_distribution` always takes the normalization branch — the
zero-total fallback list is unreachable. -/
theorem bands_floored_fallback_unreachable (tfr0 life0 growth0 : Option ℚ) :
    (∀ i : ℕ, i < 17 → 100 ≤ (rawDist tfr0 life0 growth0).getD i 0) ∧
    1700 ≤ (rawDist tfr0 life0 growth0).sum ∧
    0 < (rawDist tfr0 life0 growth0).sum ∧
    generate_distribution tfr0 life0 growth0 =
      (rawDist tfr0 life0 growth0).map
        (fun p => round2 (p / (rawDist tfr0 life0 growth0).sum * 100)) := by
  refine ⟨?_, rawTotal_ge tfr0 life0 growth0, rawTotal_pos tfr0 life0 growth0,
    generate_eq_map tfr0 life0 growth0⟩
  intro i hi
  exact rawDist_mem_ge tfr0 life0 growth0 _
    (getD_mem_of_lt (by rw [rawDist_length]; exact hi))

theorem bands_floored_fallback_unreachable_witness :
    (0 : ℕ) < 17 ∧ 100 ≤ (rawDist none none none).getD 0 0 :=
  ⟨by decide, (bands_floored_fallback_unreachable none none none).1 0 (by decide)⟩

theorem maleBars_neg_eq (S : List ℚ) :
    (maleBars S).map (fun x => -x) = S.map (fun p => round2 (p * 0.515)) := by
  unfold maleBars
  rw [List.map_map]
  have hfe : ((fun x : ℚ => -x) ∘ fun p : ℚ => round2 (-p * 0.515))
      = fun p : ℚ => round2 (p * 0.515) := by
    funext p
    simp only [Function.comp]
    rw [show (-p * (0.515 : ℚ)) = -(p * 0.515) from by ring, round2_neg]
    ring
  rw [hfe]

theorem ideal_shares_sum (D : List ℚ) (hne : D.sum ≠ 0) :
    (D.map (fun p => p / D.sum * 100)).sum = 100 := by
  have hfe : (fun p : ℚ => p / D.sum * 100) = fun p : ℚ => p * (100 / D.sum) := by
    funext p; ring
  rw [hfe, sum_map_mul_const, mul_comm]
  exact div_mul_cancel₀ 100 hne

theorem shares_abs_sum (D : List ℚ) (hne : D.sum ≠ 0) :
    |(D.map (fun p => round2 (p / D.sum * 100))).sum - 100| ≤ (D.length : ℚ) / 200 := by
  have h := abs_sum_round2_err D (fun p => p / D.sum * 100)
  rw [ideal_shares_sum D hne] at h
  exact h

theorem shares_nonneg (D : List ℚ) (hmem : ∀ p ∈ D, (100 : ℚ) ≤ p) (hpos : 0 < D.sum) :
    ∀ q ∈ D.map (fun p => round2 (p / D.sum * 100)), 0 ≤ q := by
  intro q hq
  obtain ⟨p, hp, rfl⟩ := List.mem_map.mp hq
  have h0 : (0 : ℚ) ≤ p := le_trans (by norm_num) (hmem p hp)
  exact round2_nonneg (by positivity)

theorem round2_is_centi (x : ℚ) : ∃ k : ℤ, round2 x = (k : ℚ) / 100 :=
  ⟨rhe (x * 100), rfl⟩

theorem bars_sum_eq (S : List ℚ) (hform : ∀ p ∈ S, ∃ k : ℤ, p = (k : ℚ) / 100) :
    ((maleBars S).map (fun x => -x) ++ femaleBars S).sum = S.sum := by
  rw [List.sum_append, maleBars_neg_eq]
  unfold femaleBars
  rw [sum_map_add_split]
  have hcong : S.map (fun p => round2 (p * 0.515) + round2 (p * 0.485)) = S.map id := by
    apply List.map_congr_left
    intro p hp
    obtain ⟨k, rfl⟩ := hform p hp
    exact round2_split k
  rw [hcong, List.map_id]

/-- C1: for every input triple (missing NaN inputs modelled by `none`,
then defaulted and clamped inside the synthesizer), the 34 pyramid shares
(male = 51.5% and female = 48.5% of each normalized band share, taken as
magnitudes) sum to 100 within 0.1 absolute tolerance, the list has
exactly 34 entries, and every share is non-negative. -/
theorem pyramid_shares_sum_unit_nonneg (tfr0 life0 growth0 : Option ℚ) :
    |(pyramidShares34 tfr0 life0 growth0).sum - 100| ≤ 0.1 ∧
    (pyramidShares34 tfr0 life0 growth0).length = 34 ∧
    (∀ i : ℕ, i < 34 → 0 ≤ (pyramidShares34 tfr0 life0 growth0).getD i 0) := by
  have hpos := rawTotal_pos tfr0 life0 growth0
  have hne : (rawDist tfr0 life0 growth0).sum ≠ 0 := ne_of_gt hpos
  have hP : pyramidShares34 tfr0 life0 growth0 =
      (maleBars (generate_distribution tfr0 life0 growth0)).map (fun x => -x) ++
        femaleBars (generate_distribution tfr0 life0 growth0) := rfl
  have hG := generate_eq_map tfr0 life0 growth0
  have hform : ∀ p ∈ generate_distribution tfr0 life0 growth0, ∃ k : ℤ, p = (k : ℚ) / 100 := by
    intro p hp
    rw [hG] at hp
    obtain ⟨q, _, rfl⟩ := List.mem_map.mp hp
    exact round2_is_centi _
  have hsum : (pyramidShares34 tfr0 life0 growth0).sum
      = (generate_distribution tfr0 life0 growth0).sum := by
    rw [hP]; exact bars_sum_eq _ hform
  have habs : |(generate_distribution tfr0 life0 growth0).sum - 100| ≤ 17/200 := by
    rw [hG]
    have h := shares_abs_sum (rawDist tfr0 life0 growth0) hne
    rw [rawDist_length] at h
    push_cast at h
    exact h
  have hnn : ∀ q ∈ pyramidShares34 tfr0 life0 growth0, 0 ≤ q := by
    have hSnn : ∀ q ∈ generate_distribution tfr0 life0 growth0, 0 ≤ q := by
      rw [hG]
      exact shares_nonneg _ (rawDist_mem_ge tfr0 life0 growth0) hpos
    intro q hq
    rw [hP, List.mem_append, maleBars_neg_eq] at hq
    rcases hq with hq | hq
    · obtain ⟨p, hp, rfl⟩ := List.mem_map.mp hq
      have h0 := hSnn p hp
      exact round2_nonneg (mul_nonneg h0 (by norm_num))
    · obtain ⟨p, hp, rfl⟩ := List.mem_map.mp hq
      have h0 := hSnn p hp
      exact round2_nonneg (mul_nonneg h0 (by norm_num))
  have hlen : (pyramidShares34 tfr0 life0 growth0).length = 34 := by
    rw [hP, List.length_append, List.length_map]
    unfold maleBars femaleBars
    rw [List.length_map, List.length_map, hG, List.length_map, rawDist_length]
  refine ⟨?_, hlen, ?_⟩
  · rw [hsum]
    calc |(generate_distribution tfr0 life0 growth0).sum - 100| ≤ 17/200 := habs
      _ ≤ 0.1 := by norm_num
  · intro i hi
    exact hnn _ (getD_mem_of_lt (by rw [hlen]; exact hi))

theorem pyramid_shares_sum_unit_nonneg_witness :
    (0 : ℕ) < 34 ∧ 0 ≤ (pyramidShares34 none none none).getD 0 0 :=
  ⟨by decide, (pyramid_shares_sum_unit_nonneg none none none).2.2 0 (by decide)⟩

/-- C2 (amended): the pre-normalization band populations of the loop
satisfy the recurrence only with two corrections forced by the code: the
seed band 0 is additionally multiplied by the band-0 survival value, and
every band (band 0 included) is floored at 100; for bands 1-16 the value
is `max(100, previous * survival_i * (1+growth/100)^(-(i*5)))`, with the
0.6 attrition factor kept for bands 15-16. -/
theorem band_recurrence_floored (t l g : ℚ) :
    (∀ i : ℕ, i < 17 → (distList t l g 17).getD i 0 = band t l g i) ∧
    band t l g 0 = max 100 (popBase t * survival l 0) ∧
    (∀ j : ℕ, 1 ≤ j → j ≤ 16 →
      band t l g j = max 100 (band t l g (j - 1) * survival l j *
        (1 + g / 100) ^ (-((j : ℤ) * 5)) * (if 15 ≤ j then 0.6 else 1))) := by
  refine ⟨fun i hi => distList_getD t l g 17 i hi, rfl, ?_⟩
  intro j h1 h16
  obtain ⟨m, rfl⟩ : ∃ m, j = m + 1 := ⟨j - 1, by omega⟩
  have he : band t l g (m + 1) = max 100 (bandStep t l g (m + 1) (band t l g m)) := rfl
  rw [he]
  simp only [Nat.add_sub_cancel, bandStep]
  rw [if_neg (by omega : ¬ (m + 1 = 0))]
  by_cases h15 : 15 ≤ m + 1
  · rw [if_pos h15, if_pos h15]
  · rw [if_neg h15, if_neg h15, mul_one]

theorem band_recurrence_floored_witness :
    (1 : ℕ) ≤ 16 ∧ (distList 4 60 0 17).getD 1 0 = band 4 60 0 1 :=
  ⟨by decide, (band_recurrence_floored 4 60 0).1 1 (by decide)⟩

/-- C2 counterexample: at the in-range clamped inputs (fertility 4, life
expectancy 60, growth 0) the seed band 0 of the loop is not
`100000*(fertility/5.0)*0.048` (the code also multiplies the seed by the
band-0 survival value), and band 16 does not equal
`band 15 * survival_16 * (1+growth/100)^(-(16*5)) * 0.6` (the 100 floor
binds there). -/
theorem band_recurrence_counterexample :
    (distList 4 60 0 17).getD 0 0 ≠ 100000 * ((4 : ℚ) / 5.0) * 0.048 ∧
    (distList 4 60 0 17).getD 16 0 ≠
      (distList 4 60 0 17).getD 15 0 * survival 60 16 *
        (1 + (0 : ℚ) / 100) ^ (-((16 : ℤ) * 5)) * 0.6 := by
  have h0 := distList_getD 4 60 0 17 0 (by omega)
  have h15 := distList_getD 4 60 0 17 15 (by omega)
  have h16 := distList_getD 4 60 0 17 16 (by omega)
  have hb0 : band 4 60 0 0 = 18432/5 := by
    have he : band 4 60 0 0 = max 100 (bandStep 4 60 0 0 0) := rfl
    rw [he]; norm_num [bandStep, popBase, survival]
  have hb1 : band 4 60 0 1 = 442368/125 := by
    have he : band 4 60 0 1 = max 100 (bandStep 4 60 0 1 (band 4 60 0 0)) := rfl
    rw [he, hb0]; norm_num [bandStep, survival]
  have hb2 : band 4 60 0 2 = 10616832/3125 := by
    have he : band 4 60 0 2 = max 100 (bandStep 4 60 0 2 (band 4 60 0 1)) := rfl
    rw [he, hb1]; norm_num [bandStep, survival]
  have hb3 : band 4 60 0 3 = 260112384/78125 := by
    have he : band 4 60 0 3 = max 100 (bandStep 4 60 0 3 (band 4 60 0 2)) := rfl
    rw [he, hb2]; norm_num [bandStep, survival]
  have hb4 : band 4 60 0 4 = 1268047872/390625 := by
    have he : band 4 60 0 4 = max 100 (bandStep 4 60 0 4 (band 4 60 0 3)) := rfl
    rw [he, hb3]; norm_num [bandStep, survival]
  have hb5 : band 4 60 0 5 = 30750160896/9765625 := by
    have he : band 4 60 0 5 = max 100 (bandStep 4 60 0 5 (band 4 60 0 4)) := rfl
    rw [he, hb4]; norm_num [bandStep, survival]
  have hb6 : band 4 60 0 6 = 741847631616/244140625 := by
    have he : band 4 60 0 6 = max 100 (bandStep 4 60 0 6 (band 4 60 0 5)) := rfl
    rw [he, hb5]; norm_num [bandStep, survival]
  have hb7 : band 4 60 0 7 = 17804343158784/6103515625 := by
    have he : band 4 60 0 7 = max 100 (bandStep 4 60 0 7 (band 4 60 0 6)) := rfl
    rw [he, hb6]; norm_num [bandStep, survival]
  have hb8 : band 4 60 0 8 = 425078692915968/152587890625 := by
    have he : band 4 60 0 8 = max 100 (bandStep 4 60 0 8 (band 4 60 0 7)) := rfl
    rw [he, hb7]; norm_num [bandStep, survival]
  have hb9 : band 4 60 0 9 = 2019123791350848/762939453125 := by
    have he : band 4 60 0 9 = max 100 (bandStep 4 60 0 9 (band 4 60 0 8)) := rfl
    rw [he, hb8]; norm_num [bandStep, survival]
  have hb10 : band 4 60 0 10 = 47701799570663784/19073486328125 := by
    have he : band 4 60 0 10 = max 100 (bandStep 4 60 0 10 (band 4 60 0 9)) := rfl
    rw [he, hb9]; norm_num [bandStep, survival]
  have hb11 : band 4 60 0 11 = 1120992289910598924/476837158203125 := by
    have he : band 4 60 0 11 = max 100 (bandStep 4 60 0 11 (band 4 60 0 10)) := rfl
    rw [he, hb10]; norm_num [bandStep, survival]
  have hb12 : band 4 60 0 12 = 52406389553320499697/23841857910156250 := by
    have he : band 4 60 0 12 = max 100 (bandStep 4 60 0 12 (band 4 60 0 11)) := rfl
    rw [he, hb11]; norm_num [bandStep, survival]
  have hb13 : band 4 60 0 13 = 157219168659961499091/119209289550781250 := by
    have he : band 4 60 0 13 = max 100 (bandStep 4 60 0 13 (band 4 60 0 12)) := rfl
    rw [he, hb12]; norm_num [bandStep, survival]
  have hb14 : band 4 60 0 14 = 157219168659961499091/238418579101562500 := by
    have he : band 4 60 0 14 = max 100 (bandStep 4 60 0 14 (band 4 60 0 13)) := rfl
    rw [he, hb13]; norm_num [bandStep, survival]
  have hb15 : band 4 60 0 15 = 471657505979884497273/2980232238769531250 := by
    have he : band 4 60 0 15 = max 100 (bandStep 4 60 0 15 (band 4 60 0 14)) := rfl
    rw [he, hb14]; norm_num [bandStep, survival]
  have hb16 : band 4 60 0 16 = 100 := by
    have he : band 4 60 0 16 = max 100 (bandStep 4 60 0 16 (band 4 60 0 15)) := rfl
    rw [he, hb15]; norm_num [bandStep, survival]
  constructor
  · rw [h0, hb0]; norm_num
  · rw [h16, hb16, h15, hb15]; norm_num [survival]

theorem tryYear_some_facts {c : String} {rows : List Row} {y : ℤ} {res : ResRow}
    (h : tryYear c rows y = some res) : res.year = y ∧ hasData rows y = true := by
  unfold tryYear at h
  unfold hasData
  split at h
  next r hh =>
    split at h
    next v hv =>
      have hres := (Option.some.injEq _ _).mp h
      subst hres
      simp [hv]
    next hv => exact absurd h (by simp)
  next hh => exact absurd h (by simp)

theorem tryYear_none_iff (c : String) (rows : List Row) (y : ℤ) :
    tryYear c rows y = none ↔ hasData rows y = false := by
  unfold tryYear hasData
  split
  next r hh => cases hv : r.value with | none => simp [hv] | some v => simp [hv]
  next hh => simp

theorem resolveCountry_some_facts (c : String) (rows : List Row) :
    ∀ (k : ℕ) (target : ℤ) (res : ResRow),
      resolveCountry c rows target k = some res →
      target - k ≤ res.year ∧ res.year ≤ target ∧
        tryYear c rows res.year = some res ∧
        ∀ y : ℤ, res.year < y → y ≤ target → hasData rows y = false := by
  intro k
  induction k with
  | zero =>
    intro target res h
    rw [resolveCountry] at h
    obtain ⟨hyr, _⟩ := tryYear_some_facts h
    refine ⟨by omega, by omega, by rw [hyr]; exact h, ?_⟩
    intro y h1 h2
    omega
  | succ k ih =>
    intro target res h
    rw [resolveCountry] at h
    cases htry : tryYear c rows target with
    | some r =>
      rw [htry] at h
      have hr : r = res := (Option.some.injEq _ _).mp h
      subst hr
      obtain ⟨hyr, _⟩ := tryYear_some_facts htry
      refine ⟨by push_cast; omega, by omega, by rw [hyr]; exact htry, ?_⟩
      intro y h1 h2
      omega
    | none =>
      rw [htry] at h
      obtain ⟨hb1, hb2, hb3, hb4⟩ := ih (target - 1) res h
      refine ⟨by push_cast at hb1 ⊢; omega, by omega, hb3, ?_⟩
      intro y h1 h2
      rcases (by omega : y ≤ target - 1 ∨ y = target) with hy | hy
      · exact hb4 y h1 hy
      · subst hy
        exact (tryYear_none_iff c rows y).mp htry

theorem resolveCountry_none_iff (c : String) (rows : List Row) :
    ∀ (k : ℕ) (target : ℤ),
      resolveCountry c rows target k = none ↔
        ∀ y : ℤ, target - k ≤ y → y ≤ target → hasData rows y = false := by
  intro k
  induction k with
  | zero =>
    intro target
    rw [resolveCountry]
    constructor
    · intro h y h1 h2
      have hy : y = target := by push_cast at h1; omega
      subst hy
      exact (tryYear_none_iff c rows y).mp h
    · intro hall
      exact (tryYear_none_iff c rows target).mpr (hall target (by push_cast; omega) le_rfl)
  | succ k ih =>
    intro target
    rw [resolveCountry]
    cases htry : tryYear c rows target with
    | some r =>
      simp only []
      constructor
      · intro h; exact absurd h (by simp)
      · intro hall
        have h1 := hall target (by push_cast; omega) le_rfl
        have h2 := (tryYear_some_facts htry).2
        rw [h1] at h2
        exact absurd h2 (by simp)
    | none =>
      simp only []
      rw [ih (target - 1)]
      constructor
      · intro h y h1 h2
        rcases (by omega : y ≤ target - 1 ∨ y = target) with hy | hy
        · exact h y (by push_cast at h1 ⊢; omega) hy
        · subst hy
          exact (tryYear_none_iff c rows y).mp htry
      · intro h y h1 h2
        exact h y (by push_cast at h1 ⊢; omega) (by omega)

theorem resolveCountry_succ_eq (c : String) (rows : List Row) (target : ℤ) (k : ℕ) :
    resolveCountry c rows target (k + 1) =
      match tryYear c rows target with
      | some res => some res
      | none => resolveCountry c rows (target - 1) k := rfl

/-- C3: the year resolver returns, independently per country, the record
at the largest year ≤ target and ≥ target − k whose indicator value is
present, and reports a country unavailable exactly when no such year
exists; in particular, a country with data only at year Y−2 is returned
for lookback 3 and absent from the result for lookback 1. -/
theorem year_resolver_correct :
    (∀ (c : String) (rows : List Row) (target : ℤ) (k : ℕ) (res : ResRow),
      resolveCountry c rows target k = some res →
      target - k ≤ res.year ∧ res.year ≤ target ∧
        tryYear c rows res.year = some res ∧
        ∀ y : ℤ, res.year < y → y ≤ target → hasData rows y = false) ∧
    (∀ (c : String) (rows : List Row) (target : ℤ) (k : ℕ),
      resolveCountry c rows target k = none ↔
        ∀ y : ℤ, target - k ≤ y → y ≤ target → hasData rows y = false) ∧
    (∀ (Y : ℤ) (name : String) (v : ℚ),
      get_best_available_data [⟨"KE", name, Y - 2, some v⟩] Y 3 =
        [⟨"KE", name, Y - 2, round2 v⟩] ∧
      get_best_available_data [⟨"KE", name, Y - 2, some v⟩] Y 1 = []) := by
  refine ⟨fun c rows target k res h => resolveCountry_some_facts c rows k target res h,
    fun c rows target k => resolveCountry_none_iff c rows k target, ?_⟩
  intro Y name v
  have hb1 : ((Y - 2 : ℤ) == Y) = false := by
    rw [beq_eq_false_iff_ne]; omega
  have hb2 : ((Y - 2 : ℤ) == Y - 1) = false := by
    rw [beq_eq_false_iff_ne]; omega
  have hrw : (Y - 1 - 1 : ℤ) = Y - 2 := by omega
  have hb3 : ((Y - 2 : ℤ) == Y - 1 - 1) = true := by
    rw [hrw]; exact beq_self_eq_true _
  have htY : tryYear "KE" [⟨"KE", name, Y - 2, some v⟩] Y = none := by
    simp [tryYear, List.filter, hb1]
  have htY1 : tryYear "KE" [⟨"KE", name, Y - 2, some v⟩] (Y - 1) = none := by
    simp [tryYear, List.filter, hb2]
  have htY2 : tryYear "KE" [⟨"KE", name, Y - 2, some v⟩] (Y - 1 - 1) =
      some ⟨"KE", name, Y - 2, round2 v⟩ := by
    simp only [tryYear, List.filter, hb3, List.head?]
    rw [hrw]
  have hu : uniqueCountries [⟨"KE", name, Y - 2, some v⟩] = ["KE"] := by
    rw [uniqueCountries, List.filter_nil, uniqueCountries]
  have hfil : ([⟨"KE", name, Y - 2, some v⟩] : List Row).filter
      (fun r => r.country_iso2 == "KE") = [⟨"KE", name, Y - 2, some v⟩] := by
    simp [List.filter]
  constructor
  · rw [show get_best_available_data [⟨"KE", name, Y - 2, some v⟩] Y 3 =
        (uniqueCountries [⟨"KE", name, Y - 2, some v⟩]).filterMap
          (fun c => resolveCountry c ([⟨"KE", name, Y - 2, some v⟩].filter
            (fun r => r.country_iso2 == c)) Y 3) from rfl]
    rw [hu, List.filterMap_cons, hfil]
    rw [show (3 : ℕ) = 2 + 1 from rfl, resolveCountry_succ_eq, htY]
    rw [show (2 : ℕ) = 1 + 1 from rfl, resolveCountry_succ_eq, htY1]
    rw [show (1 : ℕ) = 0 + 1 from rfl, resolveCountry_succ_eq, htY2]
    simp
  · rw [show get_best_available_data [⟨"KE", name, Y - 2, some v⟩] Y 1 =
        (uniqueCountries [⟨"KE", name, Y - 2, some v⟩]).filterMap
          (fun c => resolveCountry c ([⟨"KE", name, Y - 2, some v⟩].filter
            (fun r => r.country_iso2 == c)) Y 1) from rfl]
    rw [hu, List.filterMap_cons, hfil]
    rw [show (1 : ℕ) = 0 + 1 from rfl, resolveCountry_succ_eq, htY]
    rw [resolveCountry, htY1]
    simp

theorem year_resolver_correct_witness :
    get_best_available_data [⟨"KE", "Kenya", 2021, some 5⟩] 2023 3 =
        [⟨"KE", "Kenya", 2021, round2 5⟩] ∧
      get_best_available_data [⟨"KE", "Kenya", 2021, some 5⟩] 2023 1 = [] := by
  have h := (year_resolver_correct.2.2 2023 "Kenya" 5)
  have h21 : (2023 - 2 : ℤ) = 2021 := by norm_num
  rw [h21] at h
  exact h

/-- C4 counterexample: a metrics mapping whose population entry is
present but NaN still renders the population line — a present-but-NaN
summary metric IS rendered, contradicting the claimed if-and-only-if. -/
theorem exec_summary_nan_counterexample :
    summaryLines [("total_population_millions", PyVal.vnan)] =
      ["Population totale: nan millions"] ∧
    summaryLines [("total_population_millions", PyVal.vnan)] ≠ [] := by
  constructor
  · rfl
  · intro h
    rw [show summaryLines [("total_population_millions", PyVal.vnan)] =
      ["Population totale: nan millions"] from rfl] at h
    exact absurd h (by simp)

/-- C4 (amended): fertility rate and median age are rendered iff present
and not NaN, but population and country count are rendered iff present —
a NaN value there is rendered (as the text "nan"), not suppressed. The
guards exclude text values for the three float-formatted keys, where the
host formatting would raise instead. -/
theorem exec_summary_amended (data : Metrics)
    (_hpop : (data.lookup "total_population_millions").all (fun v => !isStr v) = true)
    (_htfr : (data.lookup "weighted_tfr").all (fun v => !isStr v) = true)
    (_hage : (data.lookup "weighted_median_age").all (fun v => !isStr v) = true) :
    (summaryLines data).length =
      (if (data.lookup "total_population_millions").isSome then 1 else 0) +
      (if ((data.lookup "weighted_tfr").elim false (fun v => !isna v)) then 1 else 0) +
      (if ((data.lookup "weighted_median_age").elim false (fun v => !isna v)) then 1 else 0) +
      (if (data.lookup "countries_analyzed").isSome then 1 else 0) ∧
    (∀ v, data.lookup "total_population_millions" = some v →
      ("Population totale: " ++ pyFormatFixed 1 v ++ " millions") ∈ summaryLines data) ∧
    (∀ v, data.lookup "weighted_tfr" = some v → isna v = false →
      ("Taux de fécondité moyen: " ++ pyFormatFixed 2 v) ∈ summaryLines data) ∧
    (∀ v, data.lookup "weighted_median_age" = some v → isna v = false →
      ("Âge médian: " ++ pyFormatFixed 1 v ++ " ans") ∈ summaryLines data) ∧
    (∀ v, data.lookup "countries_analyzed" = some v →
      ("Pays analysés: " ++ pyStr v) ∈ summaryLines data) := by
  refine ⟨?_, ?_, ?_, ?_, ?_⟩
  · rcases hp : data.lookup "total_population_millions" with _ | vp <;>
    rcases ht : data.lookup "weighted_tfr" with _ | vt <;>
    rcases ha : data.lookup "weighted_median_age" with _ | va <;>
    rcases hc : data.lookup "countries_analyzed" with _ | vc <;>
    simp only [summaryLines, hp, ht, ha, hc, Option.elim, Option.isSome] <;>
    (try cases vt) <;> (try cases va) <;> simp [isna]
  · intro v hv
    simp [summaryLines, hv]
  · intro v hv hnan
    simp [summaryLines, hv, hnan]
  · intro v hv hnan
    simp [summaryLines, hv, hnan]
  · intro v hv
    simp [summaryLines, hv]

theorem exec_summary_amended_witness :
    (([("weighted_tfr", PyVal.vfloat 4.2)] : Metrics).lookup
        "total_population_millions").all (fun v => !isStr v) = true ∧
    ("Taux de fécondité moyen: " ++ pyFormatFixed 2 (PyVal.vfloat 4.2)) ∈
      summaryLines [("weighted_tfr", PyVal.vfloat 4.2)] :=
  ⟨by decide,
   (exec_summary_amended [("weighted_tfr", PyVal.vfloat 4.2)] (by decide) (by decide)
      (by decide)).2.2.1 (PyVal.vfloat 4.2) rfl rfl⟩

/-- C5 counterexample: an integer-valued entry is rendered via `str`,
not with two-decimal precision — `{"x": 5}` renders as "x: 5", not
"x: 5.00", contradicting "each numeric value is rendered with two-decimal
precision". -/
theorem main_data_int_counterexample :
    mainDataLines [("x", PyVal.vint 5)] = ["x: 5"] ∧
    ("x: 5" : String) ≠ "x: 5.00" := by
  constructor
  · rfl
  · decide

/-- C5 (amended): MainData renders the entries in order: float values
with two-decimal precision, integer values as plain integers via `str`,
text values verbatim; NaN entries are skipped entirely (the rendered
line count equals the count of non-NaN entries, so nothing is rendered
as a blank line). -/
theorem main_data_amended (data : Metrics) :
    (mainDataLines data).length = (data.filter (fun kv => !isna kv.2)).length ∧
    (∀ k q, (k, PyVal.vfloat q) ∈ data →
      (k ++ ": " ++ pyFormatFixed 2 (PyVal.vfloat q)) ∈ mainDataLines data) ∧
    (∀ k n, (k, PyVal.vint n) ∈ data →
      (k ++ ": " ++ toString n) ∈ mainDataLines data) ∧
    (∀ k s, (k, PyVal.vstr s) ∈ data →
      (k ++ ": " ++ s) ∈ mainDataLines data) ∧
    (∀ k v rest, mainDataLines ((k, v) :: rest) =
      (if isna v then [] else
        [k ++ ": " ++ (match v with
          | PyVal.vint n => toString n
          | PyVal.vfloat q => pyFormatFixed 2 (PyVal.vfloat q)
          | PyVal.vnan => ""
          | PyVal.vstr s => s)]) ++ mainDataLines rest) := by
  refine ⟨?_, ?_, ?_, ?_, ?_⟩
  · induction data with
    | nil => rfl
    | cons kv rest ih =>
      rcases kv with ⟨k, v⟩
      cases v <;> simp [mainDataLines, List.filter, isna] at ih ⊢ <;> omega
  · intro k q hk
    induction data with
    | nil => simp at hk
    | cons kv rest ih =>
      rcases List.mem_cons.mp hk with h | h
      · subst h; simp [mainDataLines]
      · rcases kv with ⟨k', v'⟩
        cases v' <;> exact List.mem_append.mpr (Or.inr (ih h))
  · intro k n hk
    induction data with
    | nil => simp at hk
    | cons kv rest ih =>
      rcases List.mem_cons.mp hk with h | h
      · subst h; simp [mainDataLines]
      · rcases kv with ⟨k', v'⟩
        cases v' <;> exact List.mem_append.mpr (Or.inr (ih h))
  · intro k s hk
    induction data with
    | nil => simp at hk
    | cons kv rest ih =>
      rcases List.mem_cons.mp hk with h | h
      · subst h; simp [mainDataLines]
      · rcases kv with ⟨k', v'⟩
        cases v' <;> exact List.mem_append.mpr (Or.inr (ih h))
  · intro k v rest
    cases v <;> simp [mainDataLines, isna]

theorem main_data_amended_witness :
    ("x" ++ ": " ++ toString (5 : ℤ)) ∈ mainDataLines [("x", PyVal.vint 5)] :=
  (main_data_amended [("x", PyVal.vint 5)]).2.2.1 "x" 5 (by decide)

theorem get?_mem_enumFrom {α : Type} :
    ∀ (l : List α) (n i : ℕ) (x : α), l.get? i = some x → (n + i, x) ∈ l.enumFrom n := by
  intro l
  induction l with
  | nil => intro n i x h; simp at h
  | cons a t ih =>
    intro n i x h
    cases i with
    | zero =>
      simp only [List.get?] at h
      have hx : a = x := (Option.some.injEq _ _).mp h
      subst hx
      simp [List.enumFrom]
    | succ m =>
      simp only [List.get?] at h
      have hmem := ih (n + 1) m x h
      have harith : n + (m + 1) = (n + 1) + m := by omega
      rw [harith]
      exact List.mem_cons.mpr (Or.inr hmem)

theorem get?_mem_enum {α : Type} (l : List α) (i : ℕ) (x : α)
    (h : l.get? i = some x) : (i, x) ∈ l.enum := by
  have := get?_mem_enumFrom l 0 i x h
  simpa [List.enum] using this

/-- C6: when the render call of one figure raises, the document contains
the inline placeholder naming that figure index and the failure reason,
and every non-Figures section is assembled identically whatever the
figure list contains (so one bad figure never aborts the document). -/
theorem figure_failure_isolated (lang : Lang)
    (dateText timestampText module_name : String) (data : Metrics)
    (figs : List Fig) (i : ℕ) (e : String)
    (h : figs.get? i = some (some (Except.error e))) :
    Block.para ("[Erreur figure " ++ toString (i + 1) ++ ": " ++ e ++ "]") ∈
      create_simple_report lang dateText timestampText module_name data figs ∧
    (∃ pre post : List Block,
      ∀ gfigs : List Fig,
        create_simple_report lang dateText timestampText module_name data gfigs =
          pre ++ (if gfigs.isEmpty then [] else figuresBlocks lang gfigs) ++ post) := by
  constructor
  · have hmem : Block.para ("[Erreur figure " ++ toString (i + 1) ++ ": " ++ e ++ "]") ∈
        figuresBlocks lang figs := by
      unfold figuresBlocks
      refine List.mem_append.mpr (Or.inl (List.mem_append.mpr (Or.inr ?_)))
      have henum : (i, (some (Except.error e) : Fig)) ∈ figs.enum :=
        get?_mem_enum figs i _ h
      exact List.mem_flatMap.mpr ⟨(i, some (Except.error e)), henum, by
        simp [figureEntryBlocks]⟩
    have hif : (if figs.isEmpty then ([] : List Block) else figuresBlocks lang figs)
        = figuresBlocks lang figs := by
      cases figs with
      | nil => simp at h
      | cons a t => rfl
    unfold create_simple_report
    rw [hif]
    simp only [List.mem_append]
    tauto
  · refine ⟨headerBlocks lang module_name ++ dateBlocks dateText ++
      execSummaryBlocks lang data ++ mainDataBlocks lang data,
      briefExplanationBlocks lang module_name ++ footerBlocks timestampText, ?_⟩
    intro gfigs
    unfold create_simple_report
    simp [List.append_assoc]

theorem figure_failure_isolated_witness :
    Block.para ("[Erreur figure " ++ toString (0 + 1) ++ ": " ++ "boom" ++ "]") ∈
      create_simple_report Lang.fr "d" "t" "m" [] [some (Except.error "boom")] :=
  (figure_failure_isolated Lang.fr "d" "t" "m" [] [some (Except.error "boom")] 0 "boom"
    rfl).1

/-- C7: the Generative narrative never propagates a failure: with no
credential configured its blocks are a fixed notice independent of the
remote outcome (so the external service is never consulted) for both
languages; when the remote call raises, it yields the localized error
line embedding the failure reason; and in both cases the AI report still
assembles the remaining sections around it, footer included. -/
theorem ai_narrative_never_fails (lang : Lang) :
    (∀ r r' : Except String String,
      aiAnalysisBlocks lang false r = aiAnalysisBlocks lang false r') ∧
    (∀ r : Except String String,
      aiAnalysisBlocks lang false r =
        [Block.heading 2 (if lang = Lang.fr then "Analyse IA et Recommandations"
            else "AI Analysis and Recommendations"),
         Block.para noKeyNotice]) ∧
    (∀ e : String,
      aiAnalysisBlocks lang true (Except.error e) =
        [Block.heading 2 (if lang = Lang.fr then "Analyse IA et Recommandations"
            else "AI Analysis and Recommendations"),
         Block.para ((if lang = Lang.fr then "Erreur analyse IA: "
            else "Error during AI analysis: ") ++ e),
         Block.para ""]) ∧
    (∀ (dateText timestampText module_name : String) (data : Metrics)
        (figs : List Fig) (hasKey : Bool) (remote : Except String String),
      ∃ pre : List Block,
        create_ai_report lang dateText timestampText module_name data figs hasKey remote =
          pre ++ aiAnalysisBlocks lang hasKey remote ++ footerBlocks timestampText) := by
  refine ⟨fun r r' => rfl, fun r => rfl, fun e => rfl, ?_⟩
  intro dateText timestampText module_name data figs hasKey remote
  refine ⟨headerBlocks lang module_name ++ dateBlocks dateText ++
    execSummaryBlocks lang data ++ mainDataBlocks lang data ++
    (if figs.isEmpty then [] else figuresBlocks lang figs), ?_⟩
  unfold create_ai_report
  simp [List.append_assoc]

/-- C8: the Static narrative is a pure lookup: a known module name yields
exactly its canned paragraph (whatever the language), an unknown module
name yields the generic fallback paragraph, and two concrete instances
of each case are exhibited. The model is a pure function of
(module name, language), so repeated invocations agree by construction
and no external call exists. -/
theorem static_narrative_lookup :
    (∀ (module_name : String) (lang : Lang) (text : String),
      explanations.lookup module_name = some text →
      briefExplanationBlocks lang module_name =
        [Block.heading 2 (if lang = Lang.fr then "Explication" else "Explanation"),
         Block.para text, Block.para ""]) ∧
    (∀ (module_name : String) (lang : Lang),
      explanations.lookup module_name = none →
      briefExplanationBlocks lang module_name =
        [Block.heading 2 (if lang = Lang.fr then "Explication" else "Explanation"),
         Block.para genericExplanationText, Block.para ""]) ∧
    briefExplanationBlocks Lang.en "Data Explorer" =
      [Block.heading 2 "Explanation",
       Block.para "This report presents the filtered data according to your selection criteria.",
       Block.para ""] ∧
    briefExplanationBlocks Lang.en "Unknown Module" =
      [Block.heading 2 "Explanation", Block.para genericExplanationText, Block.para ""] := by
  refine ⟨?_, ?_, ?_, ?_⟩
  · intro module_name lang text h
    unfold briefExplanationBlocks
    rw [h]
    rfl
  · intro module_name lang h
    unfold briefExplanationBlocks
    rw [h]
    rfl
  · rfl
  · rfl

theorem static_narrative_lookup_witness :
    briefExplanationBlocks Lang.fr "Trend Analysis" =
      [Block.heading 2 "Explication",
       Block.para "This report compares the temporal evolution of demographic indicators across multiple countries.",
       Block.para ""] :=
  static_narrative_lookup.1 "Trend Analysis" Lang.fr
    "This report compares the temporal evolution of demographic indicators across multiple countries."
    rfl

end ADP
